import Mathlib

/-!
Verification development for the HDL generator web application
(`src/services/hdl-generator.service.ts` and `src/app.component.ts`).

The service receives free-form user input, builds a natural-language prompt,
sends it to a remote model, parses the reply text as JSON and filters the
parsed object's top-level entries.  The component orchestrates one request at
a time, guarded by a busy flag, and maintains UI state (error message,
generated output, active tab, cosmetic loading-message rotation).

Strings are modelled as `List Char`.  JavaScript objects produced by
`JSON.parse` are modelled as association lists in insertion order with a
replace-on-duplicate-key rule, which matches `JSON.parse` for the
non-numeric keys used by this application (the reordering JavaScript applies
to integer-like keys during enumeration is not modelled).  Surrogate-pair
combination in string escapes is not modelled: a `\uXXXX` escape becomes the
character with that code.  The remote call is modelled as an oracle mapping
the prompt to an outcome (a reply text or a rejection).
-/

/-- Characters that are awkward to write literally under the file hygiene
conventions are named. -/
def lbrace : Char := Char.ofNat 123

def rbrace : Char := Char.ofNat 125

def dquote : Char := Char.ofNat 34

def bslash : Char := Char.ofNat 92

def apos : Char := Char.ofNat 39

/-- A parsed JSON value, as produced by `JSON.parse`.  Numbers keep their
lexeme: no claim depends on their numeric value beyond zero-ness. -/
inductive Json where
  | null : Json
  | bool (b : Bool) : Json
  | num (lexeme : List Char) : Json
  | str (s : List Char) : Json
  | arr (elems : List Json) : Json
  | obj (entries : List (List Char × Json)) : Json
deriving Repr

/-- JSON insignificant whitespace: space, tab, line feed, carriage return. -/
def isJsonWs (c : Char) : Bool :=
  c = ' ' || c = Char.ofNat 9 || c = Char.ofNat 10 || c = Char.ofNat 13

def skipWs (l : List Char) : List Char :=
  l.dropWhile isJsonWs

/-- Whitespace removed by JavaScript `String.prototype.trim`: the JSON set
plus vertical tab, form feed, no-break space, BOM and the line/paragraph
separators (the further Unicode space separators are omitted). -/
def isJsTrimWs (c : Char) : Bool :=
  isJsonWs c || c = Char.ofNat 11 || c = Char.ofNat 12 || c = Char.ofNat 160 ||
    c = Char.ofNat 65279 || c = Char.ofNat 8232 || c = Char.ofNat 8233

/-- Embedding of JavaScript `String.prototype.trim`. -/
def jsTrim (l : List Char) : List Char :=
  ((l.dropWhile isJsTrimWs).reverse.dropWhile isJsTrimWs).reverse

def isDigitCh (c : Char) : Bool :=
  '0' ≤ c && c ≤ '9'

def hexDigitVal (c : Char) : Option Nat :=
  let n := c.toNat
  if 48 ≤ n ∧ n ≤ 57 then some (n - 48)
  else if 97 ≤ n ∧ n ≤ 102 then some (n - 87)
  else if 65 ≤ n ∧ n ≤ 70 then some (n - 55)
  else none

/-- Decode one escape sequence (the part after the backslash) of a JSON
string literal. -/
def decodeEscape : List Char → Option (Char × List Char)
  | [] => none
  | c :: rest =>
    if c = dquote then some (dquote, rest)
    else if c = bslash then some (bslash, rest)
    else if c = '/' then some ('/', rest)
    else if c = 'b' then some (Char.ofNat 8, rest)
    else if c = 'f' then some (Char.ofNat 12, rest)
    else if c = 'n' then some (Char.ofNat 10, rest)
    else if c = 'r' then some (Char.ofNat 13, rest)
    else if c = 't' then some (Char.ofNat 9, rest)
    else if c = 'u' then
      match rest with
      | h1 :: h2 :: h3 :: h4 :: r =>
        match hexDigitVal h1, hexDigitVal h2, hexDigitVal h3, hexDigitVal h4 with
        | some a, some b, some c2, some d =>
            some (Char.ofNat (a * 4096 + b * 256 + c2 * 16 + d), r)
        | _, _, _, _ => none
      | _ => none
    else none

/-- Parse the body of a JSON string literal (after the opening quote),
returning the decoded characters and the remaining input.  Raw control
characters are rejected, as `JSON.parse` rejects them. -/
def parseStringBody : Nat → List Char → Option (List Char × List Char)
  | 0, _ => none
  | fuel + 1, input =>
    match input with
    | [] => none
    | c :: rest =>
      if c = dquote then some ([], rest)
      else if c = bslash then
        match decodeEscape rest with
        | some (ch, r) => (parseStringBody fuel r).map (fun p => (ch :: p.1, p.2))
        | none => none
      else if c.toNat < 32 then none
      else (parseStringBody fuel rest).map (fun p => (c :: p.1, p.2))

def takeDigits (l : List Char) : List Char × List Char :=
  (l.takeWhile isDigitCh, l.dropWhile isDigitCh)

/-- The integer part of a JSON number: `0`, or a nonzero digit followed by
digits. -/
def parseIntPart : List Char → Option (List Char × List Char)
  | [] => none
  | c :: rest =>
    if c = '0' then some (['0'], rest)
    else if isDigitCh c then
      let p := takeDigits rest
      some (c :: p.1, p.2)
    else none

/-- Optional fraction part: a dot must be followed by at least one digit. -/
def parseFracPart : List Char → Option (List Char × List Char)
  | [] => some ([], [])
  | c :: rest =>
    if c = '.' then
      let p := takeDigits rest
      if p.1.isEmpty then none else some ('.' :: p.1, p.2)
    else some ([], c :: rest)

/-- Optional exponent part: `e`/`E`, optional sign, at least one digit. -/
def parseExpPart : List Char → Option (List Char × List Char)
  | [] => some ([], [])
  | c :: rest =>
    if c = 'e' || c = 'E' then
      let sp : List Char × List Char :=
        match rest with
        | s :: r2 => if s = '+' || s = '-' then ([s], r2) else ([], rest)
        | [] => ([], [])
      let p := takeDigits sp.2
      if p.1.isEmpty then none else some (c :: (sp.1 ++ p.1), p.2)
    else some ([], c :: rest)

/-- Parse a JSON number, returning its lexeme and the remaining input. -/
def parseNumber (l : List Char) : Option (List Char × List Char) :=
  let sp : List Char × List Char :=
    match l with
    | c :: r => if c = '-' then (['-'], r) else ([], l)
    | [] => ([], [])
  match parseIntPart sp.2 with
  | none => none
  | some (ip, l2) =>
    match parseFracPart l2 with
    | none => none
    | some (fp, l3) =>
      match parseExpPart l3 with
      | none => none
      | some (ep, l4) => some (sp.1 ++ ip ++ fp ++ ep, l4)

/-- Insert a key into an object under construction the way JavaScript
property assignment does: a duplicate key keeps its original position and
takes the new value. -/
def objInsert (entries : List (List Char × Json)) (k : List Char) (v : Json) :
    List (List Char × Json) :=
  if entries.any (fun kv => kv.1 = k) then
    entries.map (fun kv => if kv.1 = k then (k, v) else kv)
  else entries ++ [(k, v)]

/-- The pending task of the recursive-descent JSON parser: a value, the
members of an object (after the opening brace, first member expected), or
the elements of an array. -/
inductive ParseTask where
  | value : ParseTask
  | members (acc : List (List Char × Json)) : ParseTask
  | elements (acc : List Json) : ParseTask

/-- One engine for the recursive-descent parser behind `JSON.parse`,
structurally recursive on a fuel bound.  Returns the parsed value and the
remaining input. -/
def parseStep : Nat → ParseTask → List Char → Option (Json × List Char)
  | 0, _, _ => none
  | fuel + 1, ParseTask.value, input =>
    match input with
    | [] => none
    | c :: rest =>
      if c = lbrace then
        match skipWs rest with
        | c2 :: r2 =>
          if c2 = rbrace then some (Json.obj [], r2)
          else parseStep fuel (ParseTask.members []) (c2 :: r2)
        | [] => none
      else if c = '[' then
        match skipWs rest with
        | c2 :: r2 =>
          if c2 = ']' then some (Json.arr [], r2)
          else parseStep fuel (ParseTask.elements []) (c2 :: r2)
        | [] => none
      else if c = dquote then
        (parseStringBody (rest.length + 1) rest).map (fun p => (Json.str p.1, p.2))
      else if c = 't' then
        match rest with
        | 'r' :: 'u' :: 'e' :: r => some (Json.bool true, r)
        | _ => none
      else if c = 'f' then
        match rest with
        | 'a' :: 'l' :: 's' :: 'e' :: r => some (Json.bool false, r)
        | _ => none
      else if c = 'n' then
        match rest with
        | 'u' :: 'l' :: 'l' :: r => some (Json.null, r)
        | _ => none
      else
        (parseNumber (c :: rest)).map (fun p => (Json.num p.1, p.2))
  | fuel + 1, ParseTask.members acc, input =>
    match input with
    | c :: rest =>
      if c = dquote then
        match parseStringBody (rest.length + 1) rest with
        | none => none
        | some (key, r1) =>
          match skipWs r1 with
          | ':' :: r2 =>
            match parseStep fuel ParseTask.value (skipWs r2) with
            | none => none
            | some (v, r3) =>
              let acc2 := objInsert acc key v
              match skipWs r3 with
              | c4 :: r4 =>
                if c4 = ',' then parseStep fuel (ParseTask.members acc2) (skipWs r4)
                else if c4 = rbrace then some (Json.obj acc2, r4)
                else none
              | [] => none
          | _ => none
      else none
    | [] => none
  | fuel + 1, ParseTask.elements acc, input =>
    match parseStep fuel ParseTask.value input with
    | none => none
    | some (v, r1) =>
      match skipWs r1 with
      | ',' :: r2 => parseStep fuel (ParseTask.elements (acc ++ [v])) (skipWs r2)
      | ']' :: r2 => some (Json.arr (acc ++ [v]), r2)
      | _ => none

/-- Embedding of `JSON.parse`: skip surrounding whitespace, parse one value,
require the rest to be whitespace.  `none` models the thrown SyntaxError.
The fuel bound `2 * length + 8` dominates the recursion depth, which
advances by at most two levels per consumed character. -/
def jsonParse (l : List Char) : Option Json :=
  match parseStep (2 * l.length + 8) ParseTask.value (skipWs l) with
  | some (v, rest) => if (skipWs rest).isEmpty then some v else none
  | none => none

/-- JavaScript truthiness of a parsed JSON value: `null`, `false`, zero
numbers and the empty string are falsy; arrays and objects are always
truthy.  A number is zero exactly when every mantissa digit of its lexeme
is `0`. -/
def isZeroLexeme (lexeme : List Char) : Bool :=
  ((lexeme.takeWhile (fun c => c ≠ 'e' && c ≠ 'E')).filter isDigitCh).all (fun c => c = '0')

def truthy : Json → Bool
  | Json.null => false
  | Json.bool b => b
  | Json.num lexeme => !(isZeroLexeme lexeme)
  | Json.str s => !s.isEmpty
  | Json.arr _ => true
  | Json.obj _ => true

/-- The own enumerable properties a `for ... in` loop visits on a value
returned by `JSON.parse`: an object's entries in insertion order, an
array's indices paired with its elements, a string's indices paired with
its one-character substrings, and nothing for the primitives. -/
def ownEnumerableEntries : Json → List (List Char × Json)
  | Json.obj entries => entries
  | Json.arr elems => ((List.range elems.length).zip elems).map
      (fun p => ((toString p.1).data, p.2))
  | Json.str s => ((List.range s.length).zip s).map
      (fun p => ((toString p.1).data, Json.str [p.2]))
  | _ => []

/-- The filtering loop of `generateHdl` (service, lines 80–86): iterate the
parsed value's own keys and keep an entry exactly when its value is truthy.
The `hasOwnProperty` check always holds for the entries enumerated here. -/
def cleanEntries (j : Json) : List (List Char × Json) :=
  (ownEnumerableEntries j).filter (fun kv => truthy kv.2)

/-- A JavaScript thrown value as seen by a `catch` clause: an `Error`
carrying a message, or any other thrown value. -/
inductive JsThrown where
  | errorWithMessage (msg : List Char)
  | nonError
deriving Repr

/-- Outcome of the remote `generateContent` call: a reply whose payload is
`text`, or a rejection with some thrown cause. -/
inductive RemoteOutcome where
  | reply (text : List Char)
  | reject (cause : JsThrown)

def serviceFailureMessage : List Char :=
  "The AI model failed to generate a valid response.".data

/-- The fixed phrase for each known deliverable identifier inside
`buildPrompt`; unknown identifiers pass through verbatim. -/
def resolveDeliverable (hdlLanguage : List Char) (d : List Char) : List Char :=
  if d = "rtlCode".data then "RTL Code in ".data ++ hdlLanguage
  else if d = "testbench".data then "SystemVerilog/UVM Testbench".data
  else if d = "testCases".data then "Test Cases Description (in Markdown)".data
  else if d = "designSpec".data then "Design Specification (in Markdown)".data
  else d

/-- `Array.prototype.join` with a separator. -/
def joinSep (sep : List Char) : List (List Char) → List Char
  | [] => []
  | [x] => x
  | x :: y :: xs => x ++ sep ++ joinSep sep (y :: xs)

/-- The fixed pieces of the prompt template literal, split at the
interpolation points.  The text, line breaks and indentation match the
source template exactly. -/
def promptPart1 : List Char :=
  "\n      You are an expert Hardware Design and Verification Engineer AI assistant. Your role is to help users develop, verify, and test digital designs.\n      Follow best practices for synthesizable, modular, and well-documented code.\n\n      User".data
    ++ [apos] ++ "s Design Request:\n      \"".data

def promptPart2 : List Char :=
  "\"\n\n      Generation Task:\n      - Target RTL Language: ".data

def deliverablesLabel : List Char :=
  "Required Deliverables: ".data

def verifEnvLine : List Char :=
  "\n      - Verification Environment: SystemVerilog with UVM.\n      - ".data

def promptPart3 : List Char :=
  verifEnvLine ++ deliverablesLabel

def promptPart4Rest : List Char :=
  "\n\n      Instructions:\n      1.  Analyze the user".data ++ [apos] ++
    "s request and generate all the required deliverables.\n      2.  Ensure all generated code is syntactically correct and complete.\n      3.  For testbenches, create a comprehensive UVM-based environment.\n      4.  For documentation (like specs or test cases), use Markdown format.\n      5.  Return the output as a single, valid JSON object that adheres to the provided schema. Do not include any text, markdown formatting, or code blocks before or after the JSON object.\n      6.  Only generate properties in the JSON for the deliverables that were explicitly requested.\n    ".data

def promptPart4 : List Char :=
  ".".data ++ promptPart4Rest

/-- Embedding of `buildPrompt` (service, lines 94–129). -/
def buildPrompt (description hdlLanguage : List Char)
    (deliverables : List (List Char)) : List Char :=
  let deliverableList := joinSep (", ".data) (deliverables.map (resolveDeliverable hdlLanguage))
  promptPart1 ++ description ++ promptPart2 ++ hdlLanguage ++ promptPart3 ++
    deliverableList ++ promptPart4

/-- Embedding of `generateHdl` (service, lines 37–92).  The remote call is
an oracle from the built prompt to an outcome.  A rejection and a JSON
parse failure are caught by the same `catch` and rethrown as one fixed
`Error`; on success the parsed reply is filtered by `cleanEntries`. -/
def generateHdl (remote : List Char → RemoteOutcome)
    (description hdlLanguage : List Char) (deliverables : List (List Char)) :
    Except JsThrown (List (List Char × Json)) :=
  match remote (buildPrompt description hdlLanguage deliverables) with
  | RemoteOutcome.reject _ => Except.error (JsThrown.errorWithMessage serviceFailureMessage)
  | RemoteOutcome.reply text =>
    match jsonParse (jsTrim text) with
    | none => Except.error (JsThrown.errorWithMessage serviceFailureMessage)
    | some parsed => Except.ok (cleanEntries parsed)

/-- One checkbox entry of the component's deliverable list. -/
structure Deliverable where
  id : List Char
  name : List Char
  checked : Bool
deriving Repr, DecidableEq

/-- The component state touched by `generate` (app.component.ts):
form fields, busy flag, error, result, active tab, and the cosmetic
loading-message machinery (`intervalActive` records whether the recurring
rotation timer is live). -/
structure AppState where
  description : List Char
  hdlLanguage : List Char
  deliverables : List Deliverable
  isLoading : Bool
  error : Option (List Char)
  generatedOutput : Option (List (List Char × Json))
  activeTab : Option (List Char)
  loadingMessage : List Char
  intervalActive : Bool
deriving Repr

def loadingMessages : List (List Char) :=
  ["Synthesizing RTL...".data, "Building UVM environment...".data,
   "Generating test cases...".data, "Running simulations...".data,
   "Analyzing coverage...".data, "Finalizing documentation...".data]

/-- `startLoading` (component, lines 93–109): set the busy flag, show the
first cosmetic message and start the rotation interval. -/
def startLoading (s : AppState) : AppState :=
  { s with isLoading := true, loadingMessage := loadingMessages.headD [],
           intervalActive := true }

/-- `stopLoading` (component, lines 111–116): clear the busy flag and stop
the rotation interval. -/
def stopLoading (s : AppState) : AppState :=
  { s with isLoading := false, intervalActive := false }

/-- The `selectedDeliverables` computed signal (component, lines 37–39). -/
def selectedDeliverables (ds : List Deliverable) : List (List Char) :=
  (ds.filter (fun d => d.checked)).map (fun d => d.id)

def unknownErrorFallback : List Char :=
  "An unknown error occurred. Please check the console for details.".data

def surfacePrefix : List Char :=
  "Failed to generate HDL content. ".data

def underlyingMessage : JsThrown → Option (List Char)
  | JsThrown.errorWithMessage m => some m
  | JsThrown.nonError => none

/-- The error message `generate` surfaces (component, lines 74–75): the
fixed prefix followed by the caught error's message when the caught value
is an `Error`, else the fallback text. -/
def surfaceErrorMessage (t : JsThrown) : List Char :=
  surfacePrefix ++ (underlyingMessage t).getD unknownErrorFallback

/-- The synchronous part of `generate` before the remote call is awaited
(component, lines 52–58): the guard, then `startLoading` and the clearing
of the prior error and result.  The boolean reports whether the invocation
was accepted (and hence whether an outbound call is made). -/
def generateStart (s : AppState) : AppState × Bool :=
  if s.isLoading || (jsTrim s.description).isEmpty then (s, false)
  else ({ startLoading s with error := none, generatedOutput := none }, true)

/-- The part of `generate` after the awaited call settles (component,
lines 60–78): on success store the result and select its first key as the
active tab when that key is a truthy string; on failure surface the error;
in both cases `stopLoading` runs in the `finally` block. -/
def generateFinish (s : AppState)
    (outcome : Except JsThrown (List (List Char × Json))) : AppState :=
  match outcome with
  | Except.ok result =>
    let s1 := { s with generatedOutput := some result }
    let s2 :=
      match result with
      | [] => s1
      | (firstKey, _) :: _ =>
        if firstKey.isEmpty then s1 else { s1 with activeTab := some firstKey }
    stopLoading s2
  | Except.error err =>
    stopLoading { s with error := some (surfaceErrorMessage err) }

/-- One whole uninterrupted invocation of `generate`. -/
def generate (remote : List Char → RemoteOutcome) (s : AppState) :
    AppState × Bool :=
  match generateStart s with
  | (s1, false) => (s1, false)
  | (s1, true) =>
    (generateFinish s1
      (generateHdl remote s.description s.hdlLanguage
        (selectedDeliverables s.deliverables)), true)

/-- Embedding of `toggleDeliverable` (component, lines 81–87): copy the
list and replace the entry at `index` by a copy with `checked` negated.
Out of bounds, reading `.checked` of `undefined` throws, modelled as
`none`. -/
def toggleDeliverable (l : List Deliverable) (index : Nat) :
    Option (List Deliverable) :=
  match l.get? index with
  | some d => some (l.set index { d with checked := !d.checked })
  | none => none

/-- Number of positions (including the end position) at which `s` occurs
as a contiguous substring of `l`. -/
def countOcc (s : List Char) : List Char → Nat
  | [] => if s.isPrefixOf [] then 1 else 0
  | c :: rest => (if s.isPrefixOf (c :: rest) then 1 else 0) + countOcc s rest

/-- The spec's normalization example reply text:
`{"rtlCode": {"filename":"a","language":"Verilog","code":"..."}, "testbench": true, "testCases": null}`. -/
def exampleReplyText : List Char :=
  [lbrace] ++ "\"rtlCode\": ".data ++ [lbrace] ++
    "\"filename\":\"a\",\"language\":\"Verilog\",\"code\":\"...\"".data ++ [rbrace] ++
    ", \"testbench\": true, \"testCases\": null".data ++ [rbrace]

/-- The parsed form of `exampleReplyText`. -/
def exampleParsed : Json :=
  Json.obj
    [("rtlCode".data, Json.obj
        [("filename".data, Json.str ("a".data)),
         ("language".data, Json.str ("Verilog".data)),
         ("code".data, Json.str ("...".data))]),
     ("testbench".data, Json.bool true),
     ("testCases".data, Json.null)]

/-- The component's initial deliverable list (component, lines 20–25). -/
def availableDeliverables : List Deliverable :=
  [⟨"rtlCode".data, "RTL Code".data, true⟩,
   ⟨"testbench".data, "UVM Testbench".data, true⟩,
   ⟨"testCases".data, "Test Cases".data, false⟩,
   ⟨"designSpec".data, "Design Specification".data, false⟩]

/-- An idle component state with a prior error, prior result and a prior
active tab, used to exercise single invocations. -/
def idleState : AppState :=
  { description := "Design a counter".data
    hdlLanguage := "Verilog".data
    deliverables := availableDeliverables
    isLoading := false
    error := some ("old error".data)
    generatedOutput := some [("designSpec".data, Json.obj [])]
    activeTab := some ("x".data)
    loadingMessage := "Initializing AI assistant...".data
    intervalActive := false }

/-- The same state while a request is pending. -/
def busyState : AppState :=
  { idleState with isLoading := true }

/-- `countOcc` can only grow when characters are prepended. -/
theorem countOcc_le_cons (s : List Char) (c : Char) (rest : List Char) :
    countOcc s rest ≤ countOcc s (c :: rest) := by
  simp only [countOcc]
  omega

/-- `countOcc` can only grow when a list is prepended. -/
theorem countOcc_le_append (s a b : List Char) :
    countOcc s b ≤ countOcc s (a ++ b) := by
  induction a with
  | nil => simp
  | cons c a ih =>
    calc countOcc s b ≤ countOcc s (a ++ b) := ih
    _ ≤ countOcc s (c :: (a ++ b)) := countOcc_le_cons ..

/-- A list occurs at least once in any list it is a prefix of. -/
theorem one_le_countOcc_of_isPrefixOf (s l : List Char)
    (h : s.isPrefixOf l) : 1 ≤ countOcc s l := by
  cases l with
  | nil => simp [countOcc, h]
  | cons c rest => simp [countOcc, h]

/-- A list occurs at least once in `a ++ s ++ b`. -/
theorem one_le_countOcc_infix (s a b : List Char) :
    1 ≤ countOcc s (a ++ s ++ b) := by
  calc 1 ≤ countOcc s (s ++ b) :=
        one_le_countOcc_of_isPrefixOf s (s ++ b)
          (List.isPrefixOf_iff_prefix.mpr (List.prefix_append s b))
  _ ≤ countOcc s (a ++ (s ++ b)) := countOcc_le_append ..
  _ = countOcc s (a ++ s ++ b) := by rw [List.append_assoc]

set_option maxRecDepth 4000 in
/-- C1 (counterexample): the claim says a truthy non-object value is
excluded from the output, so the spec example must yield only the
`rtlCode` key; the code keeps any truthy value, and on the example reply
it returns both `rtlCode` and `testbench: true`. -/
theorem generateHdl_retains_truthy_nonobject_cex :
    generateHdl (fun _ => RemoteOutcome.reply exampleReplyText)
        ("d".data) ("Verilog".data) [] =
      Except.ok
        [("rtlCode".data, Json.obj
            [("filename".data, Json.str ("a".data)),
             ("language".data, Json.str ("Verilog".data)),
             ("code".data, Json.str ("...".data))]),
         ("testbench".data, Json.bool true)] ∧
    ((cleanEntries exampleParsed).map Prod.fst ≠ [("rtlCode".data)]) := by
  constructor
  · rfl
  · decide

/-- C1 (amended: the output keeps a top-level key exactly when its value is
truthy, regardless of the value's type — truthy non-objects are retained,
only falsy values such as `null`, `false`, `0` and `""` are dropped):
a key occurs in `cleanEntries` of a parsed object exactly when it carries a
truthy value in the parsed entries. -/
theorem cleanEntries_key_iff_truthy (entries : List (List Char × Json))
    (k : List Char) :
    (∃ v, (k, v) ∈ cleanEntries (Json.obj entries)) ↔
      (∃ v, (k, v) ∈ entries ∧ truthy v = true) := by
  simp [cleanEntries, ownEnumerableEntries, List.mem_filter]

/-- C3: the normalization step of `generateHdl` throws exactly when the
trimmed reply text is not syntactically valid JSON; a reply whose trimmed
text parses is never rejected at the parse step but normalized with
`cleanEntries`. -/
theorem generateHdl_throws_iff_parse_fails (text description hdlLanguage : List Char)
    (deliverables : List (List Char)) :
    (jsonParse (jsTrim text) = none →
      generateHdl (fun _ => RemoteOutcome.reply text) description hdlLanguage deliverables =
        Except.error (JsThrown.errorWithMessage serviceFailureMessage)) ∧
    (∀ j, jsonParse (jsTrim text) = some j →
      generateHdl (fun _ => RemoteOutcome.reply text) description hdlLanguage deliverables =
        Except.ok (cleanEntries j)) := by
  constructor
  · intro h
    simp [generateHdl, h]
  · intro j h
    simp [generateHdl, h]

set_option maxRecDepth 4000 in
/-- C3 (witness): the reply text `not json` is rejected, and the spec
example reply text is accepted at the parse step. -/
theorem generateHdl_throws_iff_parse_fails_witness :
    generateHdl (fun _ => RemoteOutcome.reply ("not json".data))
        ("d".data) ("Verilog".data) [] =
      Except.error (JsThrown.errorWithMessage serviceFailureMessage) ∧
    generateHdl (fun _ => RemoteOutcome.reply exampleReplyText)
        ("d".data) ("Verilog".data) [] =
      Except.ok (cleanEntries exampleParsed) :=
  ⟨(generateHdl_throws_iff_parse_fails ("not json".data) ("d".data) ("Verilog".data) []).1
      (by rfl),
   (generateHdl_throws_iff_parse_fails exampleReplyText ("d".data) ("Verilog".data) []).2
      exampleParsed (by rfl)⟩

set_option maxRecDepth 2000 in
/-- C2 (amended: the prompt contains the verbatim description at least
once — it is interpolated at one fixed position, but its text can also
occur inside the fixed template, so exactly-once fails — and contains the
deliverable clause built from exactly one resolved phrase per requested
identifier, joined with a comma and space, in the input order): for every
non-empty description and non-empty deliverable list, the prompt contains
the description, the resolved phrase list has one phrase per identifier in
input order, and the clause of resolved phrases is a contiguous segment of
the prompt. -/
theorem buildPrompt_contains_description_and_clause
    (description hdlLanguage : List Char) (deliverables : List (List Char))
    (hd : description ≠ []) (hds : deliverables ≠ []) :
    1 ≤ countOcc description (buildPrompt description hdlLanguage deliverables) ∧
    (deliverables.map (resolveDeliverable hdlLanguage)).length = deliverables.length ∧
    ∃ pre post,
      buildPrompt description hdlLanguage deliverables =
        pre ++ (deliverablesLabel ++
          joinSep (", ".data) (deliverables.map (resolveDeliverable hdlLanguage)) ++
          ".".data) ++ post := by
  refine ⟨?_, by simp, ?_⟩
  · have h1 : buildPrompt description hdlLanguage deliverables =
        promptPart1 ++ description ++
          (promptPart2 ++ hdlLanguage ++ promptPart3 ++
            joinSep (", ".data) (deliverables.map (resolveDeliverable hdlLanguage)) ++
            promptPart4) := by
      simp only [buildPrompt, List.append_assoc]
    rw [h1]
    exact one_le_countOcc_infix ..
  · refine ⟨promptPart1 ++ description ++ promptPart2 ++ hdlLanguage ++ verifEnvLine,
      promptPart4Rest, ?_⟩
    simp [buildPrompt, promptPart3, promptPart4, List.append_assoc]

/-- C2 (witness): a concrete non-empty description and deliverable list
satisfy the hypotheses, and the description occurs in the prompt. -/
theorem buildPrompt_contains_witness :
    ("Design a 4-bit counter".data ≠ ([] : List Char)) ∧
    1 ≤ countOcc ("Design a 4-bit counter".data)
      (buildPrompt ("Design a 4-bit counter".data) ("Verilog".data)
        ["rtlCode".data, "testbench".data]) :=
  ⟨by decide,
   (buildPrompt_contains_description_and_clause
      ("Design a 4-bit counter".data) ("Verilog".data)
      ["rtlCode".data, "testbench".data] (by decide) (by decide)).1⟩

set_option maxRecDepth 8000 in
/-- C2 (counterexample): for the non-empty description `UVM`, the language
`Verilog` and the non-empty deliverable list `[rtlCode]`, the description
occurs three times in the produced prompt (once interpolated, twice inside
the fixed template), not exactly once as the claim states. -/
theorem buildPrompt_description_not_once_cex :
    countOcc ("UVM".data)
        (buildPrompt ("UVM".data) ("Verilog".data) ["rtlCode".data]) = 3 ∧
      ¬ countOcc ("UVM".data)
          (buildPrompt ("UVM".data) ("Verilog".data) ["rtlCode".data]) = 1 := by
  have h : countOcc ("UVM".data)
      (buildPrompt ("UVM".data) ("Verilog".data) ["rtlCode".data]) = 3 := by decide
  exact ⟨h, by omega⟩

/-- C4: when the outbound call rejects, the service rethrows one fixed
`Error`; the component surfaces every caught error as the fixed prefix
followed by the caught error's message when one is available, and the
prefix followed by the unknown-error fallback text otherwise; the surfaced
text is stored as the error state on the failure exit. -/
theorem remoteFailure_surfaced (cause : JsThrown)
    (description hdlLanguage : List Char) (deliverables : List (List Char))
    (s : AppState) :
    generateHdl (fun _ => RemoteOutcome.reject cause) description hdlLanguage deliverables =
      Except.error (JsThrown.errorWithMessage serviceFailureMessage) ∧
    (∀ m, surfaceErrorMessage (JsThrown.errorWithMessage m) = surfacePrefix ++ m) ∧
    surfaceErrorMessage JsThrown.nonError = surfacePrefix ++ unknownErrorFallback ∧
    (∀ err, (generateFinish s (Except.error err)).error =
      some (surfaceErrorMessage err)) := by
  refine ⟨rfl, fun m => rfl, rfl, fun err => ?_⟩
  simp [generateFinish, stopLoading]

/-- A well-formed three-field file record: an object whose `filename`,
`language` and `code` fields are non-empty strings. -/
def lookupKey (entries : List (List Char × Json)) (k : List Char) : Option Json :=
  (entries.find? (fun kv => kv.1 = k)).map Prod.snd

def isWellFormedRecord : Json → Bool
  | Json.obj fields =>
    (match lookupKey fields ("filename".data) with
     | some (Json.str s) => !s.isEmpty
     | _ => false) &&
    (match lookupKey fields ("language".data) with
     | some (Json.str s) => !s.isEmpty
     | _ => false) &&
    (match lookupKey fields ("code".data) with
     | some (Json.str s) => !s.isEmpty
     | _ => false)
  | _ => false

theorem truthy_of_wellFormed (v : Json) (h : isWellFormedRecord v = true) :
    truthy v = true := by
  cases v <;> simp_all [isWellFormedRecord, truthy]

/-- C5: the normalization loop is the identity on already-clean input —
when every top-level value is a well-formed three-field record, the output
entries equal the input entries, with the same keys in the same order and
unchanged values. -/
theorem cleanEntries_identity_on_clean (entries : List (List Char × Json))
    (h : ∀ kv ∈ entries, isWellFormedRecord kv.2 = true) :
    cleanEntries (Json.obj entries) = entries := by
  simp only [cleanEntries, ownEnumerableEntries]
  exact List.filter_eq_self.mpr (fun kv hkv => truthy_of_wellFormed kv.2 (h kv hkv))

/-- A concrete clean input object for the C5 witness. -/
def cleanExampleEntries : List (List Char × Json) :=
  [("rtlCode".data, Json.obj
      [("filename".data, Json.str ("a.v".data)),
       ("language".data, Json.str ("Verilog".data)),
       ("code".data, Json.str ("module a; endmodule".data))]),
   ("designSpec".data, Json.obj
      [("filename".data, Json.str ("spec.md".data)),
       ("language".data, Json.str ("Markdown".data)),
       ("code".data, Json.str ("# Spec".data))])]

/-- C5 (witness): a concrete object of two well-formed records passes
through normalization unchanged. -/
theorem cleanEntries_identity_witness :
    cleanEntries (Json.obj cleanExampleEntries) = cleanExampleEntries :=
  cleanEntries_identity_on_clean cleanExampleEntries (by decide)

/-- C6: the entry to `generate` is guarded — while a call is pending
(`isLoading` true) or while the trimmed description is empty, an
invocation returns immediately with no outbound call and no state change;
hence of two immediate invocations whose first is accepted, the second
(arriving while the first is pending) makes no call. -/
theorem generate_invocation_guard (remote : List Char → RemoteOutcome)
    (s : AppState) :
    (s.isLoading = true →
      generateStart s = (s, false) ∧ generate remote s = (s, false)) ∧
    ((jsTrim s.description).isEmpty = true →
      generateStart s = (s, false) ∧ generate remote s = (s, false)) ∧
    ((generateStart s).2 = true → (generateStart (generateStart s).1).2 = false) := by
  refine ⟨?_, ?_, ?_⟩
  · intro h
    constructor
    · simp [generateStart, h]
    · simp [generate, generateStart, h]
  · intro h
    constructor
    · simp [generateStart, h]
    · simp [generate, generateStart, h]
  · intro h
    by_cases hc : s.isLoading || (jsTrim s.description).isEmpty
    · simp [generateStart, hc] at h
    · simp [generateStart, hc, startLoading]

/-- C6 (witness): the busy state rejects an invocation unchanged, and after
an accepted invocation from the idle state a second immediate invocation is
rejected, so exactly one outbound call is made. -/
theorem generate_invocation_guard_witness :
    generateStart busyState = (busyState, false) ∧
    (generateStart (generateStart idleState).1).2 = false :=
  ⟨((generate_invocation_guard (fun _ => RemoteOutcome.reject JsThrown.nonError)
      busyState).1 rfl).1,
   (generate_invocation_guard (fun _ => RemoteOutcome.reject JsThrown.nonError)
      idleState).2.2 (by decide)⟩

/-- C7: every accepted invocation clears the prior error and prior result
already in its synchronous entry phase, before the remote call is awaited,
and on the failure exit the result is still cleared, not restored. -/
theorem generate_clears_prior_state (s : AppState)
    (h : (generateStart s).2 = true) :
    (generateStart s).1.error = none ∧
    (generateStart s).1.generatedOutput = none ∧
    ∀ err, (generateFinish (generateStart s).1 (Except.error err)).generatedOutput =
      none := by
  by_cases hc : s.isLoading || (jsTrim s.description).isEmpty
  · simp [generateStart, hc] at h
  · refine ⟨?_, ?_, fun err => ?_⟩ <;>
      simp [generateStart, hc, startLoading, generateFinish, stopLoading]

/-- C7 (witness): from an idle state carrying a prior error, prior result
and prior tab, the accepted invocation has cleared error and result before
the await, and a failing finish leaves the result cleared. -/
theorem generate_clears_prior_state_witness :
    (generateStart idleState).1.error = none ∧
    (generateStart idleState).1.generatedOutput = none ∧
    (generateFinish (generateStart idleState).1
      (Except.error JsThrown.nonError)).generatedOutput = none :=
  ⟨(generate_clears_prior_state idleState (by decide)).1,
   (generate_clears_prior_state idleState (by decide)).2.1,
   (generate_clears_prior_state idleState (by decide)).2.2 JsThrown.nonError⟩

/-- C8 (amended: on the success exit the normalized output is stored, and
the active tab is set to the result's first key when that key is a
non-empty string; when the result is empty, or its first key is the empty
string — which the falsy-key check treats like no key — the active tab is
left unchanged): behaviour of the success exit of `generate`. -/
theorem generateFinish_success_stores_and_selects (s : AppState)
    (result : List (List Char × Json)) :
    (generateFinish s (Except.ok result)).generatedOutput = some result ∧
    (result = [] → (generateFinish s (Except.ok result)).activeTab = s.activeTab) ∧
    (∀ k v rest, result = (k, v) :: rest → k ≠ [] →
      (generateFinish s (Except.ok result)).activeTab = some k) ∧
    (∀ v rest, result = ([], v) :: rest →
      (generateFinish s (Except.ok result)).activeTab = s.activeTab) := by
  refine ⟨?_, ?_, ?_, ?_⟩
  · cases result with
    | nil => simp [generateFinish, stopLoading]
    | cons kv rest =>
      obtain ⟨k, v⟩ := kv
      by_cases hk : k.isEmpty <;> simp [generateFinish, stopLoading, hk]
  · intro hr
    subst hr
    simp [generateFinish, stopLoading]
  · intro k v rest hr hk
    subst hr
    have hke : k.isEmpty = false := by
      cases k with
      | nil => exact absurd rfl hk
      | cons c cs => rfl
    simp [generateFinish, stopLoading, hke]
  · intro v rest hr
    subst hr
    simp [generateFinish, stopLoading]

/-- C8 (witness): finishing with a two-record result stores it and selects
its first key `rtlCode` as the active tab. -/
theorem generateFinish_success_witness :
    (generateFinish busyState (Except.ok cleanExampleEntries)).generatedOutput =
      some cleanExampleEntries ∧
    (generateFinish busyState (Except.ok cleanExampleEntries)).activeTab =
      some ("rtlCode".data) :=
  ⟨(generateFinish_success_stores_and_selects busyState cleanExampleEntries).1,
   (generateFinish_success_stores_and_selects busyState cleanExampleEntries).2.2.1
     ("rtlCode".data) _ _ rfl (by decide)⟩

/-- The reply text `{"": {}}`, whose single key is the empty string. -/
def emptyKeyReplyText : List Char :=
  [lbrace] ++ "\"\": ".data ++ [lbrace] ++ [rbrace] ++ [rbrace]

/-- C8 (counterexample): a successful generation whose normalized result
has exactly one key, the empty string, leaves the active tab at its prior
value `x` instead of selecting the result's first key, because the code
checks the first key for truthiness and the empty string is falsy. -/
theorem generate_emptyString_key_tab_cex :
    (generate (fun _ => RemoteOutcome.reply emptyKeyReplyText) idleState).1.generatedOutput =
      some [(([] : List Char), Json.obj [])] ∧
    (generate (fun _ => RemoteOutcome.reply emptyKeyReplyText) idleState).1.activeTab =
      some ("x".data) ∧
    ("x".data : List Char) ≠ [] := by
  exact ⟨rfl, rfl, by decide⟩

/-- C9: both terminal exits of an invocation — success with any result,
and failure — unconditionally clear the busy flag and stop the cosmetic
status-message rotation interval, so no recurring task survives the call. -/
theorem generateFinish_stops_rotation (s : AppState)
    (outcome : Except JsThrown (List (List Char × Json))) :
    (generateFinish s outcome).isLoading = false ∧
    (generateFinish s outcome).intervalActive = false := by
  cases outcome with
  | ok result =>
    cases result with
    | nil => simp [generateFinish, stopLoading]
    | cons kv rest =>
      obtain ⟨k, v⟩ := kv
      by_cases hk : k.isEmpty <;> simp [generateFinish, stopLoading, hk]
  | error err => simp [generateFinish, stopLoading]

/-- C10: toggling the deliverable at an in-bounds index succeeds, keeps the
list length, leaves every other position unchanged, and replaces the entry
at the index by the same entry with only its checked flag negated. -/
theorem toggleDeliverable_only_toggles_checked (l : List Deliverable) (i : Nat)
    (h : i < l.length) :
    (toggleDeliverable l i).isSome = true ∧
    ((toggleDeliverable l i).getD []).length = l.length ∧
    (∀ j, j ≠ i → ((toggleDeliverable l i).getD []).get? j = l.get? j) ∧
    ((toggleDeliverable l i).getD []).get? i =
      (l.get? i).map (fun d => { d with checked := !d.checked }) := by
  obtain ⟨d, hd⟩ : ∃ a, l.get? i = some a := ⟨l.get ⟨i, h⟩, List.get?_eq_get h⟩
  have hd2 : l[i]? = some d := by simpa [List.get?_eq_getElem?] using hd
  refine ⟨?_, ?_, ?_, ?_⟩
  · simp [toggleDeliverable, hd2]
  · simp [toggleDeliverable, hd2, List.length_set]
  · intro j hj
    simp [toggleDeliverable, hd2, List.get?_eq_getElem?,
      List.getElem?_set_ne (Ne.symm hj)]
  · simp [toggleDeliverable, hd2, List.get?_eq_getElem?, List.getElem?_set_self, h]

/-- C10 (witness): toggling index 2 of the component's initial deliverable
list leaves index 1 unchanged and negates only the checked flag at
index 2. -/
theorem toggleDeliverable_witness :
    2 < availableDeliverables.length ∧
    ((toggleDeliverable availableDeliverables 2).getD []).get? 1 =
      availableDeliverables.get? 1 ∧
    ((toggleDeliverable availableDeliverables 2).getD []).get? 2 =
      (availableDeliverables.get? 2).map
        (fun d => { d with checked := !d.checked }) :=
  ⟨by decide,
   (toggleDeliverable_only_toggles_checked availableDeliverables 2
      (by decide)).2.2.1 1 (by decide),
   (toggleDeliverable_only_toggles_checked availableDeliverables 2
      (by decide)).2.2.2⟩
